import Mathlib

/-!
Verification of the Schema-Sense type-inference and DDL-synthesis engine.

This file is a shallow embedding of the core of the repository:
`backend/app/services/schema_inference.py` (column classifier and quality
analyzer), `backend/app/constants.py` (the regex pattern table) and
`backend/app/services/ddl_generator.py` (DDL synthesizer).  Columns are
lists of optional strings; numbers are exact rationals (`Rat`), with the
float-threshold comparisons of the source (`matches > total * 0.8`,
`valid < len * 0.9`) rendered as the equivalent exact integer comparisons
(they agree with IEEE double arithmetic for every list length below 2^49).
-/

namespace SchemaSense

/-- A column cell: `none` models a pandas null (NaN), `some s` a string value. -/
abbrev Column := List (Option String)

/-! ### Kernel-reducible exact rational arithmetic

The engine's numeric computations are embedded over `Rat`.  The operations
below compute through `mkRat` (which the kernel evaluates on literals) and are
proved equal to the field operations of `ℚ`, so proofs can use the Mathlib
algebra while concrete witnesses evaluate by `decide`. -/

def qMul (a b : Rat) : Rat := mkRat (a.num * b.num) (a.den * b.den)

def qAdd (a b : Rat) : Rat := mkRat (a.num * b.den + b.num * a.den) (a.den * b.den)

def qSub (a b : Rat) : Rat := mkRat (a.num * b.den - b.num * a.den) (a.den * b.den)

def qInv (b : Rat) : Rat :=
  if b.num < 0 then mkRat (-(b.den : Int)) b.num.natAbs else mkRat b.den b.num.natAbs

def qDiv (a b : Rat) : Rat := qMul a (qInv b)

def qNeg (a : Rat) : Rat := mkRat (-a.num) a.den

/-- Whitespace set used by `str.strip` / `\s` (ASCII subset actually occurring in data). -/
def isSpaceChar (c : Char) : Bool :=
  c == ' ' || c == '\t' || c == '\n' || c == '\r'

/-- Python `str.strip()`: drop leading and trailing whitespace. -/
def pyStrip (s : String) : String :=
  String.mk (((s.data.dropWhile isSpaceChar).reverse.dropWhile isSpaceChar).reverse)

/-- ASCII lower-casing of one character (models `str.lower` / `re.IGNORECASE` on ASCII). -/
def lowerChar (c : Char) : Char :=
  if 'A' ≤ c ∧ c ≤ 'Z' then Char.ofNat (c.toNat + 32) else c

/-- Python `str.lower()` on ASCII data. -/
def pyLower (s : String) : String :=
  String.mk (s.data.map lowerChar)

/-- Python `sep.join(parts)`. -/
def pyJoin (sep : String) : List String → String
  | [] => ""
  | [x] => x
  | x :: xs => x ++ sep ++ pyJoin sep xs

/-- Does `pat` occur at the head of `l`? (helper for substring tests). -/
def listStarts : List Char → List Char → Bool
  | [], _ => true
  | _ :: _, [] => false
  | p :: ps, c :: cs => p == c && listStarts ps cs

/-- Python `pat in s` substring test, on character lists. -/
def containsSub (pat : List Char) : List Char → Bool
  | [] => pat.isEmpty
  | c :: cs => listStarts pat (c :: cs) || containsSub pat cs

/-- Embeds `.min()` of a pandas series: `none` on the empty series (NaN). -/
def minListO {α} [Min α] : List α → Option α
  | [] => none
  | x :: xs => some (xs.foldl min x)

/-- Embeds `.max()` of a pandas series: `none` on the empty series (NaN). -/
def maxListO {α} [Max α] : List α → Option α
  | [] => none
  | x :: xs => some (xs.foldl max x)

/-- Value of a list of decimal digit characters. -/
def digitsToNat (l : List Char) : Nat :=
  l.foldl (fun a c => 10 * a + (c.toNat - '0'.toNat)) 0

/-- Modelled from the library collaborator `pd.to_numeric(·, errors='coerce')`
applied to one string cell: parses an optionally signed decimal literal
(digits with at most one decimal point, e.g. `-12`, `3.5`, `.5`, `7.`) into an
exact rational; anything else coerces to NaN (`none`).  Scientific notation and
the special floats `inf`/`nan` are outside the modelled fragment. -/
def parseNumeric (s : String) : Option Rat :=
  let l := (pyStrip s).data
  let signed : Bool × List Char :=
    match l with
    | '-' :: r => (true, r)
    | '+' :: r => (false, r)
    | _ => (false, l)
  let neg := signed.1
  let l2 := signed.2
  let ip := l2.takeWhile (· ≠ '.')
  let rest := l2.drop ip.length
  match rest with
  | [] =>
    if !ip.isEmpty && ip.all Char.isDigit then
      some (mkRat (if neg then -(digitsToNat ip : Int) else (digitsToNat ip : Int)) 1)
    else none
  | '.' :: fp =>
    if (!ip.isEmpty || !fp.isEmpty) && ip.all Char.isDigit && fp.all Char.isDigit then
      let n : Int := (digitsToNat ip) * 10 ^ fp.length + digitsToNat fp
      some (mkRat (if neg then -n else n) (10 ^ fp.length))
    else none
  | _ => none

/-! ### Regular-expression pattern matchers

Each function below is the matcher of one entry of `TYPE_PATTERNS` in
`backend/app/constants.py`, under the semantics actually used by the
classifier: `pandas.Series.str.match(pattern, case=False)`, i.e. Python
`re.match` (anchored at the start only) with `re.IGNORECASE`.  The character
classes are translated literally; `re.IGNORECASE` is rendered by lower-casing
the input where a pattern mentions cased letters. -/

/-- Consume a fixed sequence of single-character tests, returning the rest. -/
def matchSeq : List (Char → Bool) → List Char → Option (List Char)
  | [], l => some l
  | _ :: _, [] => none
  | p :: ps, c :: cs => if p c then matchSeq ps cs else none

def isEmailLocal (c : Char) : Bool :=
  c.isAlpha || c.isDigit || c == '.' || c == '_' || c == '%' || c == '+' || c == '-'

def isEmailDomain (c : Char) : Bool :=
  c.isAlpha || c.isDigit || c == '.' || c == '-'

/-- Matcher for `^[a-zA-Z0-9._%+-]+@[a-zA-Z0-9.-]+\.[a-zA-Z]{2,}$` -/
def email_match (s : String) : Bool :=
  let l := s.data
  let lp := l.takeWhile (· ≠ '@')
  match l.drop lp.length with
  | '@' :: dom =>
    !lp.isEmpty && lp.all isEmailLocal &&
    (List.range dom.length).any fun i =>
      dom.getD i ' ' == '.' && decide (0 < i) && (dom.take i).all isEmailDomain &&
      decide (i + 3 ≤ dom.length) && (dom.drop (i + 1)).all Char.isAlpha
  | _ => false

def isPhoneChar (c : Char) : Bool :=
  c.isDigit || isSpaceChar c || c == '-' || c == '(' || c == ')' || c == '.'

/-- Matcher for `^[\+]?[\d\s\-\(\)\.]{7,20}$` -/
def phone_match (s : String) : Bool :=
  let l := s.data
  let l2 := match l with
    | '+' :: r => r
    | _ => l
  decide (7 ≤ l2.length) && decide (l2.length ≤ 20) && l2.all isPhoneChar

/-- Matcher for `^https?://[^\s]+$` (case-insensitive) -/
def url_match (s : String) : Bool :=
  match (pyLower s).data with
  | 'h' :: 't' :: 't' :: 'p' :: rest =>
    match rest with
    | 's' :: ':' :: '/' :: '/' :: r => !r.isEmpty && r.all fun c => !isSpaceChar c
    | ':' :: '/' :: '/' :: r => !r.isEmpty && r.all fun c => !isSpaceChar c
    | _ => false
  | _ => false

def dch (c : Char) : Bool := c.isDigit

def isSep (c : Char) : Bool := c == '/' || c == '-'

/-- Matcher for `^\d{4}-\d{2}-\d{2}|\d{2}[/\-]\d{2}[/\-]\d{4}|\d{1,2}[/\-]\d{1,2}[/\-]\d{2,4}$`.
The alternation binds at the top level, and `re.match` only anchors at the
start, so the first two alternatives are prefix matches while only the third
is anchored at both ends. -/
def date_match (s : String) : Bool :=
  let l := s.data
  (matchSeq [dch, dch, dch, dch, (· == '-'), dch, dch, (· == '-'), dch, dch] l).isSome ||
  (matchSeq [dch, dch, isSep, dch, dch, isSep, dch, dch, dch, dch] l).isSome ||
  ([1, 2].any fun a => [1, 2].any fun b => [2, 3, 4].any fun c =>
    match matchSeq
        (List.replicate a dch ++ [isSep] ++ List.replicate b dch ++ [isSep] ++
          List.replicate c dch) l with
    | some [] => true
    | _ => false)

/-- Optional `\s?(AM|PM|am|pm)` tail of the time pattern, on lowered input. -/
def ampmOk (r : List Char) : Bool :=
  r.isEmpty || r == ['a', 'm'] || r == ['p', 'm'] ||
  (match r with
   | c :: rest => isSpaceChar c && (rest == ['a', 'm'] || rest == ['p', 'm'])
   | [] => true)

/-- Matcher for `^\d{1,2}:\d{2}(:\d{2})?(\s?(AM|PM|am|pm))?$` (case-insensitive) -/
def time_match (s : String) : Bool :=
  let l := (pyLower s).data
  [1, 2].any fun h =>
    match matchSeq (List.replicate h dch ++ [(· == ':'), dch, dch]) l with
    | some r =>
      ampmOk r ||
      (match matchSeq [(· == ':'), dch, dch] r with
       | some r2 => ampmOk r2
       | none => false)
    | none => false

/-- Matcher for `^(true|false|yes|no|y|n|1|0|t|f)$` (case-insensitive) -/
def bool_match (s : String) : Bool :=
  ["true", "false", "yes", "no", "y", "n", "1", "0", "t", "f"].any fun w => pyLower s == w

def isHexLower (c : Char) : Bool := c.isDigit || ('a' ≤ c && c ≤ 'f')

/-- Matcher for `^[0-9a-f]{8}-[0-9a-f]{4}-[0-9a-f]{4}-[0-9a-f]{4}-[0-9a-f]{12}$` (case-insensitive) -/
def uuid_match (s : String) : Bool :=
  match matchSeq
      (List.replicate 8 isHexLower ++ [(· == '-')] ++ List.replicate 4 isHexLower ++
        [(· == '-')] ++ List.replicate 4 isHexLower ++ [(· == '-')] ++
        List.replicate 4 isHexLower ++ [(· == '-')] ++ List.replicate 12 isHexLower)
      (pyLower s).data with
  | some [] => true
  | _ => false

/-- Embeds `TYPE_PATTERNS` of `backend/app/constants.py`: the ordered pattern table
(Python dicts preserve insertion order, which `_detect_patterns` iterates). -/
def TYPE_PATTERNS : List (String × (String → Bool)) :=
  [("email", email_match), ("phone", phone_match), ("url", url_match),
   ("date", date_match), ("time", time_match), ("boolean", bool_match),
   ("uuid", uuid_match)]

/-! ### Column classifier (`SchemaInferenceEngine`) -/

/-- Embeds `_detect_patterns`: first pattern matched by strictly more than 80% of the
values wins.  The source compares `matches > total_count * 0.8` in float
arithmetic; `5 * matches > 4 * total` is the same comparison exactly. -/
def detect_patterns (vals : List String) : Option String :=
  TYPE_PATTERNS.findSome? fun pr =>
    if 5 * vals.countP pr.2 > 4 * vals.length then some pr.1 else none

/-- Embeds `_classify_integer_type`: smallest integer container for the observed
min/max.  The `[]` case mirrors the pandas NaN-comparison behaviour of the
source on an empty series (every comparison false, falling to `BIGINT`). -/
def classify_integer_type (nums : List Rat) : String × String :=
  match nums with
  | [] => ("bigint", "BIGINT")
  | x :: xs =>
    let mn := xs.foldl min x
    let mx := xs.foldl max x
    if 0 ≤ mn then
      if mx ≤ 255 then ("tinyint_unsigned", "TINYINT UNSIGNED")
      else if mx ≤ 65535 then ("smallint_unsigned", "SMALLINT UNSIGNED")
      else if mx ≤ 4294967295 then ("int_unsigned", "INT UNSIGNED")
      else ("bigint_unsigned", "BIGINT UNSIGNED")
    else
      if -128 ≤ mn ∧ mx ≤ 127 then ("tinyint", "TINYINT")
      else if -32768 ≤ mn ∧ mx ≤ 32767 then ("smallint", "SMALLINT")
      else if -2147483648 ≤ mn ∧ mx ≤ 2147483647 then ("int", "INT")
      else ("bigint", "BIGINT")

/-- Decimal places of one value as counted by the source (digits after the
point in the decimal rendering of the parsed number): the least `k` with
`v * 10^k` integral. -/
def decimalPlaces (v : Rat) : Nat :=
  (((List.range 40).find? fun k => (qMul v (mkRat ((10 : Int) ^ k) 1)).den == 1)).getD 40

/-- Embeds `_classify_decimal_type`: precision from the maximum number of decimal
places (`pd.isna` of the max on an empty series falls to `DECIMAL(15,4)`). -/
def classify_decimal_type (nums : List Rat) : String × String :=
  match maxListO (nums.map decimalPlaces) with
  | none => ("decimal", "DECIMAL(15,4)")
  | some m =>
    if m ≤ 4 then ("decimal", "DECIMAL(15,4)")
    else if m ≤ 6 then ("decimal", "DECIMAL(20,6)")
    else ("float", "FLOAT")

/-- Embeds `_detect_numeric_types`: coerce every value, require at least 90% success
(`valid < len * 0.9` in the source is exactly `10 * valid < 9 * len`), then
split on all-integral (`% 1 == 0`, i.e. denominator 1). -/
def detect_numeric_types (vals : List String) : Option (String × String) :=
  let nums := vals.filterMap parseNumeric
  if 10 * nums.length < 9 * vals.length then none
  else if nums.all fun v => v.den == 1 then some (classify_integer_type nums)
  else some (classify_decimal_type nums)

/-- Embeds `_analyze_string_type`: VARCHAR/TEXT band from the maximum string length. -/
def analyze_string_type (vals : List String) : String × String :=
  let maxLength := (maxListO (vals.map String.length)).getD 0
  if maxLength ≤ 10 then ("short_string", "VARCHAR(" ++ toString (min 50 (maxLength + 10)) ++ ")")
  else if maxLength ≤ 100 then ("string", "VARCHAR(" ++ toString (min 255 (maxLength + 20)) ++ ")")
  else if maxLength ≤ 255 then ("string", "VARCHAR(255)")
  else if maxLength ≤ 1000 then ("medium_string", "TEXT")
  else ("long_string", "LONGTEXT")

/-- Embeds `_get_mysql_type_for_pattern` (a dict lookup with default `TEXT`). -/
def get_mysql_type_for_pattern (p : String) : String :=
  if p = "email" then "VARCHAR(100)"
  else if p = "phone" then "VARCHAR(25)"
  else if p = "url" then "VARCHAR(500)"
  else if p = "date" then "DATE"
  else if p = "time" then "TIME"
  else if p = "boolean" then "BOOLEAN"
  else if p = "uuid" then "CHAR(36)"
  else "TEXT"

/-- Embeds `_infer_types` after `dropna`: the hierarchical classifier on the ordered
non-null values of a column.  Phase 1 and phase 3 see the stripped strings,
phase 2 the raw non-null values, exactly as in the source. -/
def infer_from_values (vals : List String) : String × String :=
  if vals.isEmpty then ("unknown", "TEXT")
  else
    let strVals := vals.map pyStrip
    match detect_patterns strVals with
    | some p => (p, get_mysql_type_for_pattern p)
    | none =>
      match detect_numeric_types vals with
      | some r => r
      | none => analyze_string_type strVals

/-- Embeds `_infer_types`: returns `(data_type, mysql_type)` for a column. -/
def infer_types (col : Column) : String × String :=
  infer_from_values (col.filterMap id)

/-! ### Quality analyzer -/

/-- Round a rational to the nearest integer, ties to even (the rounding of
Python's float formatting and `round`, modelled on exact rationals). -/
def roundHalfEvenQ (t : Rat) : Int :=
  let fl := t.floor
  let fr := qSub t (mkRat fl 1)
  if fr < mkRat 1 2 then fl
  else if mkRat 1 2 < fr then fl + 1
  else if fl % 2 == 0 then fl else fl + 1

/-- Python `f"{q:.1f}"` on exact rationals. -/
def fmt1 (q : Rat) : String :=
  let n := (roundHalfEvenQ (qMul (mkRat 10 1) (if q < 0 then qNeg q else q))).toNat
  let s := toString (n / 10) ++ "." ++ toString (n % 10)
  if q < 0 ∧ n ≠ 0 then "-" ++ s else s

/-- Python `round(q, 2)` on exact rationals. -/
def round2 (q : Rat) : Rat :=
  mkRat (roundHalfEvenQ (qMul (mkRat 100 1) q)) 100

/-- Insert into a sorted list (ascending). -/
def insertSorted (x : Rat) : List Rat → List Rat
  | [] => [x]
  | y :: ys => if x ≤ y then x :: y :: ys else y :: insertSorted x ys

/-- Sort ascending (the order pandas uses internally for quantiles). -/
def sortRats : List Rat → List Rat
  | [] => []
  | x :: xs => insertSorted x (sortRats xs)

/-- Embeds `Series.quantile(p)` with the default linear interpolation: index
`h = p·(n-1)` into the sorted values, interpolating between the two
neighbouring order statistics. -/
def quantileL (xs : List Rat) (p : Rat) : Rat :=
  let s := sortRats xs
  let n := s.length
  if n = 0 then 0
  else
    let h := qMul p (mkRat (n - 1 : Nat) 1)
    let i := h.floor.toNat
    let j := min (i + 1) (n - 1)
    let lo := s.getD i 0
    let hi := s.getD j 0
    qAdd lo (qMul (qSub h (mkRat i 1)) (qSub hi lo))

/-- Embeds `IQR = Q3 - Q1` of `_analyze_numeric_quality`. -/
def iqrOf (xs : List Rat) : Rat := qSub (quantileL xs (mkRat 3 4)) (quantileL xs (mkRat 1 4))

/-- The values outside `[Q1 - 1.5·IQR, Q3 + 1.5·IQR]`. -/
def outliersOf (xs : List Rat) : List Rat :=
  xs.filter fun v =>
    decide (v < qSub (quantileL xs (mkRat 1 4)) (qMul (mkRat 3 2) (iqrOf xs))) ||
    decide (qAdd (quantileL xs (mkRat 3 4)) (qMul (mkRat 3 2) (iqrOf xs)) < v)

/-- The outlier-percentage finding string, with the percentage
`len(outliers)/len(numeric)*100` of the source. -/
def outlierFinding (nums : List Rat) : String :=
  "Statistical outliers detected (" ++
    fmt1 (qMul (qDiv (mkRat (outliersOf nums).length 1) (mkRat nums.length 1)) (mkRat 100 1)) ++
    "%) - review extreme values"

def identicalFinding : String := "All numeric values are identical - consider constant handling"

/-- Embeds `_analyze_numeric_quality`: coerce, drop non-coercible, IQR outliers, then
the constant-column check.  (The broad `except` of the source is unreachable in
the modelled fragment: `pd.to_numeric(errors='coerce')` does not raise.) -/
def analyze_numeric_quality (vals : List String) : List String :=
  let nums := vals.filterMap parseNumeric
  if nums.isEmpty then []
  else
    (if 0 < iqrOf nums then
      if 0 < (outliersOf nums).length then [outlierFinding nums] else []
    else []) ++
    (if qSub ((maxListO nums).getD 0) ((minListO nums).getD 0) = 0 then [identicalFinding]
     else [])

/-- Embeds `_analyze_string_quality`: whitespace, casing, very-long and empty-string
findings, in source order. -/
def analyze_string_quality (vals : List String) : List String :=
  (if vals.map pyStrip = vals then []
   else ["Leading/trailing whitespace detected - consider trimming"]) ++
  (if vals.dedup.length = (vals.map pyLower).dedup.length then []
   else ["Inconsistent casing detected - standardize case if needed"]) ++
  (if 1000 < (maxListO (vals.map String.length)).getD 0 then
    ["Very long text values detected - consider TEXT type or truncation"]
   else []) ++
  (let ec := vals.countP (· == "")
   if 0 < ec then
     ["Empty strings detected (" ++
       fmt1 (qMul (qDiv (mkRat ec 1) (mkRat vals.length 1)) (mkRat 100 1)) ++
       "%) - standardize with nulls"]
   else [])

/-- Sample standard deviation squared (pandas `.std()` uses `ddof=1`); the
source compares `std > 2`, which is exactly `variance > 4`. -/
def sampleVariance (xs : List Rat) : Rat :=
  let n := xs.length
  if n ≤ 1 then 0
  else
    let mean := qDiv (xs.foldl qAdd 0) (mkRat n 1)
    qDiv (xs.foldl (fun a x => qAdd a (qMul (qSub x mean) (qSub x mean))) 0) (mkRat (n - 1) 1)

/-- Embeds `_analyze_pattern_quality`: email multiple-`@` check; phone length
inconsistency via the standard deviation of the string lengths.  `.std() > 2`
on the lengths is rendered as `sampleVariance > 4` (equivalent since both
sides are nonnegative); a single value gives `std = NaN`, which compares
false, i.e. no finding. -/
def analyze_pattern_quality (vals : List String) (pattern_type : String) : List String :=
  if pattern_type = "email" then
    if vals.any fun s => 2 ≤ s.data.countP (· == '@') then
      ["Multiple @ symbols detected in some email addresses"]
    else []
  else if pattern_type = "phone" then
    if vals.length ≤ 1 then []
    else if mkRat 4 1 < sampleVariance (vals.map fun s => mkRat s.length 1) then
      ["Inconsistent phone number formats - consider standardization"]
    else []
  else []

/-- Embeds `_generate_cleaning_recommendations`: tiered null-rate finding, then
type-specific findings dispatched on the logical type (note the source
dispatches the string family by the substring test `"string" in data_type` and
the numeric family by membership in the literal list
`['decimal', 'int', 'bigint', 'tinyint', 'smallint']`). -/
def generate_cleaning_recommendations (col : Column) (data_type : String)
    (null_percentage : Rat) : List String :=
  let base :=
    if 50 < null_percentage then
      ["High null rate (" ++ fmt1 null_percentage ++ "%) - evaluate column necessity"]
    else if 20 < null_percentage then
      ["Significant null rate (" ++ fmt1 null_percentage ++
        "%) - implement null handling strategy"]
    else if 5 < null_percentage then
      ["Moderate null rate (" ++ fmt1 null_percentage ++ "%) - consider default values"]
    else []
  let nonNull := col.filterMap id
  if nonNull.isEmpty then base
  else
    base ++
      (if containsSub "string".data data_type.data then analyze_string_quality nonNull
       else if data_type ∈ ["decimal", "int", "bigint", "tinyint", "smallint"] then
         analyze_numeric_quality nonNull
       else if data_type ∈ ["email", "phone", "url"] then
         analyze_pattern_quality nonNull data_type
       else [])

/-- The raw (unrounded) null percentage `analyze_column` passes to the
recommendation generator: `(null_count / total_count) * 100`, `0` for an
empty column. -/
def nullPercentageRaw (col : Column) : Rat :=
  if 0 < col.length then
    qMul (qDiv (mkRat (col.countP (·.isNone)) 1) (mkRat col.length 1)) (mkRat 100 1)
  else 0

/-- The cleaning recommendations `analyze_column` computes for a column. -/
def cleaningRecsOf (col : Column) : List String :=
  generate_cleaning_recommendations col (infer_types col).1 (nullPercentageRaw col)

/-- Embeds `ColumnAnalysis` of `backend/app/models/schema.py`. -/
structure ColumnAnalysis where
  name : String := ""
  data_type : String := ""
  mysql_type : String := ""
  sample_values : List String := []
  null_count : Nat := 0
  unique_count : Nat := 0
  total_count : Nat := 0
  null_percentage : Rat := 0
  description : String := ""
  cleaning_recommendations : List String := []
deriving DecidableEq, Repr

/-- Embeds `SchemaInferenceEngine.analyze_column`: statistics, classification and
recommendations for one named column. -/
def analyze_column (name : String) (col : Column) : ColumnAnalysis :=
  let total_count := col.length
  let null_count := col.countP (·.isNone)
  let null_percentage := nullPercentageRaw col
  let nonNull := col.filterMap id
  let types := infer_types col
  { name := name
    data_type := types.1
    mysql_type := types.2
    sample_values := nonNull.take 5
    null_count := null_count
    unique_count := nonNull.dedup.length
    total_count := total_count
    null_percentage := round2 null_percentage
    description := ""
    cleaning_recommendations := generate_cleaning_recommendations col types.1 null_percentage }

/-! ### DDL synthesizer (`DDLGenerator`) -/

/-- The fixed reserved-word set of `DDLGenerator.__init__`. -/
def reservedWords : List String :=
  ["select", "insert", "update", "delete", "from", "where", "join",
   "inner", "outer", "left", "right", "on", "order", "by", "group",
   "having", "union", "create", "table", "index", "key", "primary",
   "foreign", "references", "constraint", "alter", "drop", "database",
   "schema", "view", "procedure", "function", "trigger", "user",
   "grant", "revoke", "commit", "rollback", "transaction"]

/-- Is `c` in `[a-zA-Z0-9_]` (the characters `_sanitize_identifier` keeps)? -/
def isIdentChar (c : Char) : Bool :=
  ('a' ≤ c && c ≤ 'z') || ('A' ≤ c && c ≤ 'Z') || ('0' ≤ c && c ≤ '9') || c == '_'

/-- Does the list start with a decimal digit? -/
def digitStart : List Char → Bool
  | c :: _ => c.isDigit
  | [] => false

/-- Embeds `_sanitize_identifier`: replace invalid characters by `_`, prefix `col_`
for a digit start, `unnamed_column` for empty input, truncate to 61 + `_tr`
beyond 64 characters. -/
def sanitize_identifier (name : String) : String :=
  if name = "" then "unnamed_column"
  else
    let s := name.data.map fun c => if isIdentChar c then c else '_'
    let s := if digitStart s then ['c', 'o', 'l', '_'] ++ s else s
    if s.isEmpty then "unnamed_column"
    else if 64 < s.length then String.mk (s.take 61 ++ ['_', 't', 'r'])
    else String.mk s

/-- Escape single quotes and truncate to 100 characters — in that order, as
the source does (`description.replace("'", "\\'")[:100]`). -/
def escapeTrunc (desc : String) : String :=
  String.mk ((desc.data.flatMap fun c => if c == '\'' then ['\\', '\''] else [c]).take 100)

/-- The final (sanitized, reserved-word suffixed) name of a column. -/
def finalColumnName (name : String) : String :=
  let clean := sanitize_identifier name
  if pyLower clean ∈ reservedWords then clean ++ "_col" else clean

/-- Embeds `_generate_column_definition`: backtick-quoted name, type, nullability and
optional comment, joined by single spaces with empty parts dropped
(`" ".join(filter(None, parts))`). -/
def generate_column_definition (column : ColumnAnalysis) : String :=
  let clean_name := finalColumnName column.name
  let nullable := if 0 < column.null_count then "NULL" else "NOT NULL"
  let comment :=
    if column.description ≠ "" then "COMMENT '" ++ escapeTrunc column.description ++ "'" else ""
  pyJoin " " (["    `" ++ clean_name ++ "`", column.mysql_type, nullable, comment].filter (· ≠ ""))

/-- Embeds `generate_ddl`: the complete CREATE TABLE statement. -/
def generate_ddl (table_name : String) (columns : List ColumnAnalysis) : String :=
  let clean_table_name := sanitize_identifier table_name
  let column_definitions := columns.map generate_column_definition
  pyJoin "\n"
    ["CREATE TABLE `" ++ clean_table_name ++ "` (",
     pyJoin ",\n" column_definitions,
     ") ENGINE=InnoDB DEFAULT CHARSET=utf8mb4 COLLATE=utf8mb4_unicode_ci;"]

/-! ### Specification-side definitions (used to state the claims) -/

/-- Acceptance of one pattern, as the spec words it: strictly more than 80% of
the values match. -/
@[reducible]
def patternAccepted (vals : List String) (m : String → Bool) : Prop :=
  5 * vals.countP m > 4 * vals.length

/-- The numeric range of each integer logical type (MySQL ranges). -/
def integerTypeBounds : String → Rat × Rat
  | "tinyint_unsigned" => (0, 255)
  | "smallint_unsigned" => (0, 65535)
  | "int_unsigned" => (0, 4294967295)
  | "bigint_unsigned" => (0, 18446744073709551615)
  | "tinyint" => (-128, 127)
  | "smallint" => (-32768, 32767)
  | "int" => (-2147483648, 2147483647)
  | "bigint" => (-9223372036854775808, 9223372036854775807)
  | _ => (0, 0)

/-- The coerced numeric values the classifier observes for a column. -/
def coercedValues (col : Column) : List Rat :=
  (col.filterMap id).filterMap parseNumeric

/-- All observed values fit the 64-bit container of their signedness class:
the proviso under which the BIGINT fallbacks of `_classify_integer_type` are
in range. -/
@[reducible]
def fits64 (nums : List Rat) : Prop :=
  match nums with
  | [] => True
  | x :: xs =>
    let mn := xs.foldl min x
    let mx := xs.foldl max x
    if 0 ≤ mn then mx ≤ 18446744073709551615
    else -9223372036854775808 ≤ mn ∧ mx ≤ 9223372036854775807

/-- One column definition as §4.5 of the spec words it: backtick-quoted final
name, target type, nullability, optional comment clause. -/
def ddlColumnDefSpec (c : ColumnAnalysis) : String :=
  "    `" ++ finalColumnName c.name ++ "`" ++ " " ++ c.mysql_type ++ " " ++
    (if 0 < c.null_count then "NULL" else "NOT NULL") ++
    (if c.description = "" then "" else " " ++ ("COMMENT '" ++ escapeTrunc c.description ++ "'"))

/-- The 100-value scenario column with 91 numeric-integer values. -/
def scenario91 : Column := List.replicate 91 (some "17") ++ List.replicate 9 (some "abc")

/-- The 100-value scenario column with exactly 89 numeric values. -/
def scenario89 : Column := List.replicate 89 (some "17") ++ List.replicate 11 (some "abc")

/-! ### Helper lemmas -/

theorem qMul_eq (a b : Rat) : qMul a b = a * b := by
  rw [qMul, Rat.mkRat_eq_div]
  push_cast
  rw [← div_mul_div_comm, Rat.num_div_den, Rat.num_div_den]

theorem qAdd_eq (a b : Rat) : qAdd a b = a + b := by
  have ha : ((a.den : ℚ)) ≠ 0 := by positivity
  have hb : ((b.den : ℚ)) ≠ 0 := by positivity
  rw [qAdd, Rat.mkRat_eq_div]
  push_cast
  conv_rhs => rw [← Rat.num_div_den a, ← Rat.num_div_den b]
  field_simp

theorem qSub_eq (a b : Rat) : qSub a b = a - b := by
  have ha : ((a.den : ℚ)) ≠ 0 := by positivity
  have hb : ((b.den : ℚ)) ≠ 0 := by positivity
  rw [qSub, Rat.mkRat_eq_div]
  push_cast
  conv_rhs => rw [← Rat.num_div_den a, ← Rat.num_div_den b]
  rw [div_sub_div _ _ ha hb]
  ring_nf

theorem qNeg_eq (a : Rat) : qNeg a = -a := by
  rw [qNeg, Rat.mkRat_eq_div]
  push_cast
  rw [neg_div, Rat.num_div_den]

theorem qInv_eq (b : Rat) : qInv b = b⁻¹ := by
  rcases eq_or_ne b 0 with hb | hb
  · subst hb
    simp [qInv, Rat.mkRat_eq_div]
  · have hnum : b.num ≠ 0 := Rat.num_ne_zero.mpr hb
    rw [qInv]
    by_cases hneg : b.num < 0
    · rw [if_pos hneg, Rat.mkRat_eq_div]
      push_cast [Int.cast_natAbs]
      rw [abs_of_neg (show ((b.num : ℚ)) < 0 by exact_mod_cast hneg)]
      conv_rhs => rw [← Rat.num_div_den b]
      rw [inv_div, neg_div_neg_eq]
    · rw [if_neg hneg, Rat.mkRat_eq_div]
      push_cast [Int.cast_natAbs]
      rw [abs_of_nonneg (show (0 : ℚ) ≤ (b.num : ℚ) by exact_mod_cast not_lt.mp hneg)]
      conv_rhs => rw [← Rat.num_div_den b]
      rw [inv_div]

theorem qDiv_eq (a b : Rat) : qDiv a b = a / b := by
  rw [qDiv, qMul_eq, qInv_eq, div_eq_mul_inv]

theorem findSomeIf_eq_none {α β : Type} (p : α → Prop) [DecidablePred p] (f : α → β)
    (l : List α) :
    (l.findSome? fun x => if p x then some (f x) else none) = none ↔ ∀ x ∈ l, ¬ p x := by
  induction l with
  | nil => simp
  | cons a as ih =>
    by_cases h : p a
    · simp [List.findSome?_cons, if_pos h, h]
    · simp [List.findSome?_cons, if_neg h, h, ih]

theorem findSomeIf_eq_some {α β : Type} (p : α → Prop) [DecidablePred p] (f : α → β)
    (l : List α) (y : β) :
    (l.findSome? fun x => if p x then some (f x) else none) = some y ↔
      ∃ l₁ x l₂, l = l₁ ++ x :: l₂ ∧ p x ∧ f x = y ∧ ∀ z ∈ l₁, ¬ p z := by
  induction l with
  | nil => simp
  | cons a as ih =>
    by_cases h : p a
    · rw [List.findSome?_cons]
      simp only [if_pos h, Option.some.injEq]
      constructor
      · intro hy
        exact ⟨[], a, as, rfl, h, hy, by simp⟩
      · rintro ⟨l₁, x, l₂, heq, hx, hfx, hnone⟩
        match l₁, heq with
        | [], heq =>
          cases heq
          exact hfx
        | b :: l₁, heq =>
          have hb : b = a := by
            have := congrArg (List.headD · a) heq
            simpa using this.symm
          subst hb
          exact absurd h (hnone b (by simp))
    · rw [List.findSome?_cons]
      simp only [if_neg h]
      rw [ih]
      constructor
      · rintro ⟨l₁, x, l₂, heq, hx, hfx, hnone⟩
        refine ⟨a :: l₁, x, l₂, by simp [heq], hx, hfx, ?_⟩
        intro z hz
        rcases List.mem_cons.mp hz with hz | hz
        · subst hz; exact h
        · exact hnone z hz
      · rintro ⟨l₁, x, l₂, heq, hx, hfx, hnone⟩
        match l₁, heq with
        | [], heq =>
          cases heq
          exact absurd hx h
        | b :: l₁, heq =>
          have hb : b = a := by
            have := congrArg (List.headD · a) heq
            simpa using this.symm
          subst hb
          have htail : as = l₁ ++ x :: l₂ := by
            have := congrArg List.tail heq
            simpa using this
          exact ⟨l₁, x, l₂, htail, hx, hfx, fun z hz => hnone z (by simp [hz])⟩

section MinMaxFold

variable {α : Type} [LinearOrder α]

theorem foldl_min_le_init (l : List α) : ∀ a : α, l.foldl min a ≤ a := by
  induction l with
  | nil => simp
  | cons x xs ih =>
    intro a
    calc (x :: xs).foldl min a = xs.foldl min (min a x) := by rw [List.foldl_cons]
    _ ≤ min a x := ih _
    _ ≤ a := min_le_left _ _

theorem foldl_min_le_mem (l : List α) : ∀ a b : α, b ∈ l → l.foldl min a ≤ b := by
  induction l with
  | nil => simp
  | cons x xs ih =>
    intro a b hb
    rw [List.foldl_cons]
    rcases List.mem_cons.mp hb with hb | hb
    · subst hb
      calc xs.foldl min (min a b) ≤ min a b := foldl_min_le_init _ _
      _ ≤ b := min_le_right _ _
    · exact ih _ _ hb

theorem foldl_min_mem_or (l : List α) : ∀ a : α, l.foldl min a = a ∨ l.foldl min a ∈ l := by
  induction l with
  | nil => simp
  | cons x xs ih =>
    intro a
    rw [List.foldl_cons]
    rcases ih (min a x) with h | h
    · rcases min_choice a x with hm | hm
      · left; rw [h, hm]
      · right; rw [h, hm]; exact List.mem_cons_self _ _
    · right; exact List.mem_cons_of_mem _ h

theorem foldl_max_init_le (l : List α) : ∀ a : α, a ≤ l.foldl max a := by
  induction l with
  | nil => simp
  | cons x xs ih =>
    intro a
    calc a ≤ max a x := le_max_left _ _
    _ ≤ xs.foldl max (max a x) := ih _
    _ = (x :: xs).foldl max a := by rw [List.foldl_cons]

theorem foldl_max_mem_le (l : List α) : ∀ a b : α, b ∈ l → b ≤ l.foldl max a := by
  induction l with
  | nil => simp
  | cons x xs ih =>
    intro a b hb
    rw [List.foldl_cons]
    rcases List.mem_cons.mp hb with hb | hb
    · subst hb
      calc b ≤ max a b := le_max_right _ _
      _ ≤ xs.foldl max (max a b) := foldl_max_init_le _ _
    · exact ih _ _ hb

theorem foldl_max_mem_or (l : List α) : ∀ a : α, l.foldl max a = a ∨ l.foldl max a ∈ l := by
  induction l with
  | nil => simp
  | cons x xs ih =>
    intro a
    rw [List.foldl_cons]
    rcases ih (max a x) with h | h
    · rcases max_choice a x with hm | hm
      · left; rw [h, hm]
      · right; rw [h, hm]; exact List.mem_cons_self _ _
    · right; exact List.mem_cons_of_mem _ h

theorem minListO_perm {l₁ l₂ : List α} (h : l₁.Perm l₂) : minListO l₁ = minListO l₂ := by
  match l₁, l₂, h with
  | [], [], _ => rfl
  | [], _ :: _, h => exact absurd h.length_eq (by simp)
  | _ :: _, [], h => exact absurd h.length_eq (by simp)
  | x :: xs, y :: ys, h =>
    simp only [minListO, Option.some.injEq]
    have hmem : ∀ z, z ∈ x :: xs ↔ z ∈ y :: ys := fun z => h.mem_iff
    have h1 : xs.foldl min x ∈ x :: xs := by
      rcases foldl_min_mem_or xs x with hh | hh
      · rw [hh]; exact List.mem_cons_self _ _
      · exact List.mem_cons_of_mem _ hh
    have h2 : ys.foldl min y ∈ y :: ys := by
      rcases foldl_min_mem_or ys y with hh | hh
      · rw [hh]; exact List.mem_cons_self _ _
      · exact List.mem_cons_of_mem _ hh
    have hle : ∀ z : α, z ∈ x :: xs → xs.foldl min x ≤ z := by
      intro z hz
      rcases List.mem_cons.mp hz with hz | hz
      · subst hz; exact foldl_min_le_init _ _
      · exact foldl_min_le_mem _ _ _ hz
    have hle' : ∀ z : α, z ∈ y :: ys → ys.foldl min y ≤ z := by
      intro z hz
      rcases List.mem_cons.mp hz with hz | hz
      · subst hz; exact foldl_min_le_init _ _
      · exact foldl_min_le_mem _ _ _ hz
    exact le_antisymm (hle _ ((hmem _).mpr h2)) (hle' _ ((hmem _).mp h1))

theorem maxListO_perm {l₁ l₂ : List α} (h : l₁.Perm l₂) : maxListO l₁ = maxListO l₂ := by
  match l₁, l₂, h with
  | [], [], _ => rfl
  | [], _ :: _, h => exact absurd h.length_eq (by simp)
  | _ :: _, [], h => exact absurd h.length_eq (by simp)
  | x :: xs, y :: ys, h =>
    simp only [maxListO, Option.some.injEq]
    have hmem : ∀ z, z ∈ x :: xs ↔ z ∈ y :: ys := fun z => h.mem_iff
    have h1 : xs.foldl max x ∈ x :: xs := by
      rcases foldl_max_mem_or xs x with hh | hh
      · rw [hh]; exact List.mem_cons_self _ _
      · exact List.mem_cons_of_mem _ hh
    have h2 : ys.foldl max y ∈ y :: ys := by
      rcases foldl_max_mem_or ys y with hh | hh
      · rw [hh]; exact List.mem_cons_self _ _
      · exact List.mem_cons_of_mem _ hh
    have hge : ∀ z : α, z ∈ x :: xs → z ≤ xs.foldl max x := by
      intro z hz
      rcases List.mem_cons.mp hz with hz | hz
      · subst hz; exact foldl_max_init_le _ _
      · exact foldl_max_mem_le _ _ _ hz
    have hge' : ∀ z : α, z ∈ y :: ys → z ≤ ys.foldl max y := by
      intro z hz
      rcases List.mem_cons.mp hz with hz | hz
      · subst hz; exact foldl_max_init_le _ _
      · exact foldl_max_mem_le _ _ _ hz
    exact le_antisymm (hge' _ ((hmem _).mp h1)) (hge _ ((hmem _).mpr h2))

end MinMaxFold

theorem length_filterMap_eq_countP {α β : Type} (f : α → Option β) (l : List α) :
    (l.filterMap f).length = l.countP fun a => (f a).isSome := by
  induction l with
  | nil => simp
  | cons a as ih =>
    cases h : f a with
    | none => simp [List.filterMap_cons, h, List.countP_cons, ih]
    | some b => simp [List.filterMap_cons, h, List.countP_cons, ih]

theorem filterMap_eq_replicate {α β : Type} {f : α → Option β} {c : β} :
    ∀ {l : List α}, (∀ v ∈ l, f v = some c) → l.filterMap f = List.replicate l.length c := by
  intro l
  induction l with
  | nil => simp
  | cons a as ih =>
    intro h
    have ha := h a (List.mem_cons_self _ _)
    rw [List.filterMap_cons, ha, List.length_cons, List.replicate_succ]
    rw [ih fun v hv => h v (List.mem_cons_of_mem _ hv)]

theorem foldl_min_replicate (c : Rat) : ∀ n, (List.replicate n c).foldl min c = c := by
  intro n
  induction n with
  | zero => rfl
  | succ k ih => rw [List.replicate_succ, List.foldl_cons, min_self]; exact ih

theorem foldl_max_replicate (c : Rat) : ∀ n, (List.replicate n c).foldl max c = c := by
  intro n
  induction n with
  | zero => rfl
  | succ k ih => rw [List.replicate_succ, List.foldl_cons, max_self]; exact ih

theorem pyJoin_append_singleton (sep x : String) :
    ∀ L : List String, L ≠ [] → pyJoin sep (L ++ [x]) = pyJoin sep L ++ sep ++ x := by
  intro L
  induction L with
  | nil => intro h; exact absurd rfl h
  | cons a as ih =>
    intro _
    cases as with
    | nil => rfl
    | cons b bs =>
      have := ih (by simp)
      simp only [List.cons_append, List.append_eq, pyJoin] at this ⊢
      rw [this]
      simp only [String.append_assoc]

theorem string_data_append (a b : String) : (a ++ b).data = a.data ++ b.data := by
  cases a
  cases b
  rfl

theorem data_mk (l : List Char) : (String.mk l).data = l := rfl

theorem string_eq_of_data (a b : String) (h : a.data = b.data) : a = b := by
  cases a
  cases b
  exact congrArg String.mk h

theorem perm_all {α : Type} {l₁ l₂ : List α} (h : l₁.Perm l₂) (f : α → Bool) :
    l₁.all f = l₂.all f := by
  cases h₁ : l₁.all f <;> cases h₂ : l₂.all f
  · rfl
  · exfalso
    rw [List.all_eq_true] at h₂
    rw [List.all_eq_false] at h₁
    obtain ⟨a, ha, hfa⟩ := h₁
    exact hfa (h₂ a (h.mem_iff.mp ha))
  · exfalso
    rw [List.all_eq_true] at h₁
    rw [List.all_eq_false] at h₂
    obtain ⟨a, ha, hfa⟩ := h₂
    exact hfa (h₁ a (h.mem_iff.mpr ha))
  · rfl

theorem detect_patterns_perm {v₁ v₂ : List String} (h : v₁.Perm v₂) :
    detect_patterns v₁ = detect_patterns v₂ := by
  have hfun : (fun pr : String × (String → Bool) =>
      if 5 * v₁.countP pr.2 > 4 * v₁.length then some pr.1 else none) =
      (fun pr : String × (String → Bool) =>
        if 5 * v₂.countP pr.2 > 4 * v₂.length then some pr.1 else none) := by
    funext pr
    rw [h.countP_eq pr.2, h.length_eq]
  rw [detect_patterns, detect_patterns, hfun]

theorem classify_integer_perm {n₁ n₂ : List Rat} (h : n₁.Perm n₂) :
    classify_integer_type n₁ = classify_integer_type n₂ := by
  match n₁, n₂, h with
  | [], [], _ => rfl
  | [], _ :: _, h => exact absurd h.length_eq (by simp)
  | _ :: _, [], h => exact absurd h.length_eq (by simp)
  | x :: xs, y :: ys, h =>
    have hmn : xs.foldl min x = ys.foldl min y := by
      have := minListO_perm h
      simpa [minListO] using this
    have hmx : xs.foldl max x = ys.foldl max y := by
      have := maxListO_perm h
      simpa [maxListO] using this
    simp only [classify_integer_type, hmn, hmx]

theorem classify_decimal_perm {n₁ n₂ : List Rat} (h : n₁.Perm n₂) :
    classify_decimal_type n₁ = classify_decimal_type n₂ := by
  rw [classify_decimal_type, classify_decimal_type, maxListO_perm (h.map decimalPlaces)]

theorem detect_numeric_perm {v₁ v₂ : List String} (h : v₁.Perm v₂) :
    detect_numeric_types v₁ = detect_numeric_types v₂ := by
  have hn : (v₁.filterMap parseNumeric).Perm (v₂.filterMap parseNumeric) :=
    h.filterMap parseNumeric
  simp only [detect_numeric_types, hn.length_eq, h.length_eq,
    perm_all hn (fun v => v.den == 1), classify_integer_perm hn, classify_decimal_perm hn]

theorem analyze_string_type_perm {v₁ v₂ : List String} (h : v₁.Perm v₂) :
    analyze_string_type v₁ = analyze_string_type v₂ := by
  rw [analyze_string_type, analyze_string_type, maxListO_perm (h.map String.length)]

theorem infer_from_values_perm {v₁ v₂ : List String} (h : v₁.Perm v₂) :
    infer_from_values v₁ = infer_from_values v₂ := by
  have hstr : (v₁.map pyStrip).Perm (v₂.map pyStrip) := h.map pyStrip
  have hempty : v₁.isEmpty = v₂.isEmpty := by
    cases v₁ with
    | nil =>
      cases v₂ with
      | nil => rfl
      | cons b bs => exact absurd h.length_eq (by simp)
    | cons a as =>
      cases v₂ with
      | nil => exact absurd h.length_eq (by simp)
      | cons b bs => rfl
  simp only [infer_from_values, hempty, detect_patterns_perm hstr, detect_numeric_perm h,
    analyze_string_type_perm hstr]

theorem sanitize_output_prop (s : String) :
    (sanitize_identifier s).data ≠ [] ∧
    (∀ c ∈ (sanitize_identifier s).data, isIdentChar c = true) ∧
    digitStart (sanitize_identifier s).data = false ∧
    (sanitize_identifier s).data.length ≤ 64 := by
  by_cases h0 : s = ""
  · subst h0
    decide
  · simp only [sanitize_identifier, if_neg h0]
    have hmlen : (s.data.map fun c => if isIdentChar c then c else '_').length = s.data.length :=
      List.length_map _ _
    have hmne : (s.data.map fun c => if isIdentChar c then c else '_') ≠ [] := by
      intro hh
      apply h0
      have hd : s.data = [] := by
        have := congrArg List.length hh
        rw [hmlen] at this
        exact List.length_eq_zero.mp this
      cases s
      simpa using congrArg String.mk hd
    have hmval : ∀ c ∈ s.data.map fun c => if isIdentChar c then c else '_',
        isIdentChar c = true := by
      intro c hc
      obtain ⟨a, _, rfl⟩ := List.mem_map.mp hc
      by_cases hia : isIdentChar a
      · rwa [if_pos hia]
      · rw [if_neg hia]
        decide
    set m := s.data.map fun c => if isIdentChar c then c else '_' with hm
    have finish : ∀ l : List Char, l ≠ [] → (∀ c ∈ l, isIdentChar c = true) →
        digitStart l = false →
        (if l.isEmpty then "unnamed_column"
         else if 64 < l.length then String.mk (l.take 61 ++ ['_', 't', 'r'])
         else String.mk l).data ≠ [] ∧
        (∀ c ∈ (if l.isEmpty then "unnamed_column"
            else if 64 < l.length then String.mk (l.take 61 ++ ['_', 't', 'r'])
            else String.mk l).data, isIdentChar c = true) ∧
        digitStart (if l.isEmpty then "unnamed_column"
            else if 64 < l.length then String.mk (l.take 61 ++ ['_', 't', 'r'])
            else String.mk l).data = false ∧
        (if l.isEmpty then "unnamed_column"
         else if 64 < l.length then String.mk (l.take 61 ++ ['_', 't', 'r'])
         else String.mk l).data.length ≤ 64 := by
      intro l hne hval hds
      rw [if_neg (fun hh => hne (List.isEmpty_iff.mp hh))]
      by_cases hlen : 64 < l.length
      · rw [if_pos hlen]
        simp only [data_mk]
        have htk : (l.take 61).length = 61 := by
          rw [List.length_take]
          omega
        refine ⟨?_, ?_, ?_, ?_⟩
        · intro hh
          have h2 := congrArg List.length hh
          rw [List.length_append, htk] at h2
          simp at h2
        · intro c hc
          rcases List.mem_append.mp hc with hc | hc
          · exact hval c (List.mem_of_mem_take hc)
          · fin_cases hc <;> decide
        · match l, hne with
          | [], hne => exact absurd rfl hne
          | c :: t, _ => exact hds
        · rw [List.length_append, htk]
          decide
      · rw [if_neg hlen]
        simp only [data_mk]
        exact ⟨hne, hval, hds, by omega⟩
    by_cases hd : digitStart m = true
    · rw [if_pos hd]
      refine finish _ (by simp) ?_ rfl
      intro c hc
      rcases List.mem_append.mp hc with hc | hc
      · fin_cases hc <;> decide
      · exact hmval c hc
    · rw [if_neg hd]
      have hds : digitStart m = false := by
        cases hb : digitStart m
        · rfl
        · exact absurd hb hd
      exact finish m hmne hmval hds

theorem sanitize_fixed (s : String) (h1 : s.data ≠ [])
    (h2 : ∀ c ∈ s.data, isIdentChar c = true) (h3 : digitStart s.data = false)
    (h4 : s.data.length ≤ 64) : sanitize_identifier s = s := by
  have h0 : s ≠ "" := by
    intro hh
    subst hh
    exact h1 rfl
  simp only [sanitize_identifier, if_neg h0]
  have hmap : (s.data.map fun c => if isIdentChar c then c else '_') = s.data := by
    have hcg : ∀ a ∈ s.data, (fun c => if isIdentChar c then c else '_') a = id a := by
      intro a ha
      simp [h2 a ha]
    rw [List.map_congr_left hcg, List.map_id]
  rw [hmap, h3]
  simp only [Bool.false_eq_true, if_false]
  rw [if_neg (fun hh => h1 (List.isEmpty_iff.mp hh)), if_neg (by omega)]

end SchemaSense

namespace SchemaSense

/-! ### The claims -/

set_option maxRecDepth 8000 in
/-- Claim C4 (confirmed): a column reaching the numeric-detection phase
qualifies as numeric iff at least 90% of its non-null values coerce to
numbers; in particular the 91/100 scenario classifies as a numeric integer
type and the 89/100 scenario falls through to string classification. -/
theorem claim_C4_numeric_threshold :
    (∀ vals : List String,
      (detect_numeric_types vals).isSome = true ↔
        9 * vals.length ≤ 10 * vals.countP fun v => (parseNumeric v).isSome) ∧
    infer_types scenario91 = ("tinyint_unsigned", "TINYINT UNSIGNED") ∧
    infer_types scenario89 = ("short_string", "VARCHAR(13)") := by
  refine ⟨fun vals => ?_, by decide, by decide⟩
  have hlen := length_filterMap_eq_countP parseNumeric vals
  simp only [detect_numeric_types]
  by_cases h : 10 * (vals.filterMap parseNumeric).length < 9 * vals.length
  · rw [if_pos h]
    simp only [Option.isSome_none, Bool.false_eq_true, false_iff]
    omega
  · rw [if_neg h]
    have hsome : (if (vals.filterMap parseNumeric).all (fun v => v.den == 1) then
        some (classify_integer_type (vals.filterMap parseNumeric))
      else some (classify_decimal_type (vals.filterMap parseNumeric))).isSome = true := by
      split <;> rfl
    rw [hsome]
    simp only [true_iff]
    omega

/-- Claim C6, counterexample: for table name `select` with one column
`created-at`, the generated DDL does **not** contain the identifier
`` `select_col` `` anywhere — table names are never reserved-word suffixed. -/
theorem claim_C6_counterexample :
    containsSub "`select_col`".data
      (generate_ddl "select" [{ name := "created-at", mysql_type := "DATE" }]).data = false := by
  decide

/-- Claim C6 (corrected): for table name `select` and single column
`created-at`, the DDL renders the table identifier as `` `select` `` (with no
`_col` suffix, since table names are not reserved-word-checked) and the column
as `` `created_at` ``. -/
theorem claim_C6_reserved_scenario :
    generate_ddl "select" [{ name := "created-at", mysql_type := "DATE" }] =
      "CREATE TABLE `select` (\n    `created_at` DATE NOT NULL\n) ENGINE=InnoDB DEFAULT CHARSET=utf8mb4 COLLATE=utf8mb4_unicode_ci;" ∧
    containsSub "`select`".data
      (generate_ddl "select" [{ name := "created-at", mysql_type := "DATE" }]).data = true ∧
    containsSub "`created_at`".data
      (generate_ddl "select" [{ name := "created-at", mysql_type := "DATE" }]).data = true := by
  refine ⟨by decide, by decide, by decide⟩

/-- Claim C7 (confirmed): identifier sanitization is a retraction:
`sanitize(sanitize(x)) = sanitize(x)` for every string `x`. -/
theorem claim_C7_sanitize_idempotent (s : String) :
    sanitize_identifier (sanitize_identifier s) = sanitize_identifier s := by
  obtain ⟨h1, h2, h3, h4⟩ := sanitize_output_prop s
  exact sanitize_fixed _ h1 h2 h3 h4

/-- Claim C9 (confirmed): a column with zero non-null values classifies as
`unknown`/`TEXT`, and its cleaning recommendations are exactly the high
null-rate finding when the column is non-empty, and empty when
`totalCount = 0`. -/
theorem claim_C9_empty_column (col : Column) (h : ∀ v ∈ col, v = none) :
    infer_types col = ("unknown", "TEXT") ∧
    cleaningRecsOf col =
      if col = [] then [] else ["High null rate (100.0%) - evaluate column necessity"] := by
  have hnn : col.filterMap id = [] := by
    rw [List.filterMap_eq_nil_iff]
    intro a ha
    rw [h a ha]
    rfl
  constructor
  · rw [infer_types, hnn]
    rfl
  · cases col with
    | nil => decide
    | cons a as =>
      rw [if_neg (List.cons_ne_nil a as)]
      have hcount : (a :: as).countP (·.isNone) = (a :: as).length := by
        rw [List.countP_eq_length]
        intro v hv
        rw [h v hv]
        rfl
      have hpct : nullPercentageRaw (a :: as) = 100 := by
        rw [nullPercentageRaw, if_pos (by simp), hcount, qMul_eq, qDiv_eq,
          Rat.mkRat_eq_div, Rat.mkRat_eq_div]
        have hne : (((a :: as).length : Int) : ℚ) ≠ 0 := by
          simp only [List.length_cons]
          push_cast
          exact ne_of_gt (by positivity)
        simp only [Nat.cast_one, div_one]
        rw [div_self hne, one_mul]
        norm_num
      rw [cleaningRecsOf, hpct]
      simp only [generate_cleaning_recommendations, hnn, List.isEmpty_nil, if_true]
      rw [if_pos (by norm_num : (50 : Rat) < 100)]
      have hf : fmt1 100 = "100.0" := by decide
      rw [hf]
      decide

/-- Witness for C9 at the concrete all-null column `[null, null]`. -/
theorem claim_C9_empty_column_witness :
    infer_types ([none, none] : Column) = ("unknown", "TEXT") ∧
    cleaningRecsOf ([none, none] : Column) =
      ["High null rate (100.0%) - evaluate column necessity"] := by
  have h := claim_C9_empty_column [none, none] (by decide)
  exact ⟨h.1, by simpa using h.2⟩

/-- Claim C2, counterexample: the column `["7","7","7"]` classifies as the
numeric integer type `tinyint_unsigned` and all its values coerce to the one
identical number 7, yet the quality analyzer emits **no** findings at all —
the unsigned integer logical types are not dispatched to the numeric quality
analysis. -/
theorem claim_C2_counterexample :
    (infer_types [some "7", some "7", some "7"]).1 = "tinyint_unsigned" ∧
    coercedValues [some "7", some "7", some "7"] = List.replicate 3 7 ∧
    cleaningRecsOf [some "7", some "7", some "7"] = [] := by
  refine ⟨by decide, by decide, by decide⟩

/-- Claim C3 (confirmed): a pattern is accepted exactly when strictly more
than 80% of the (trimmed, non-null) values match it; the patterns are tried in
declaration order email, phone, url, date, time, boolean, uuid; the first to
clear the threshold wins; and the winner fixes the target type through the
fixed pattern-to-type mapping. -/
theorem claim_C3_pattern_selection :
    (∀ vals : List String,
      (detect_patterns vals = none ↔ ∀ pr ∈ TYPE_PATTERNS, ¬ patternAccepted vals pr.2)) ∧
    (∀ (vals : List String) (p : String), detect_patterns vals = some p →
      ∃ l₁ m l₂, TYPE_PATTERNS = l₁ ++ (p, m) :: l₂ ∧ patternAccepted vals m ∧
        ∀ pr ∈ l₁, ¬ patternAccepted vals pr.2) ∧
    TYPE_PATTERNS.map Prod.fst = ["email", "phone", "url", "date", "time", "boolean", "uuid"] ∧
    (∀ (col : Column) (p : String),
      detect_patterns ((col.filterMap id).map pyStrip) = some p →
      infer_types col = (p, get_mysql_type_for_pattern p)) ∧
    (get_mysql_type_for_pattern "email" = "VARCHAR(100)" ∧
     get_mysql_type_for_pattern "phone" = "VARCHAR(25)" ∧
     get_mysql_type_for_pattern "url" = "VARCHAR(500)" ∧
     get_mysql_type_for_pattern "date" = "DATE" ∧
     get_mysql_type_for_pattern "time" = "TIME" ∧
     get_mysql_type_for_pattern "boolean" = "BOOLEAN" ∧
     get_mysql_type_for_pattern "uuid" = "CHAR(36)") := by
  refine ⟨?_, ?_, rfl, ?_, by decide⟩
  · intro vals
    simp only [detect_patterns]
    exact findSomeIf_eq_none
      (fun pr : String × (String → Bool) => 5 * vals.countP pr.2 > 4 * vals.length)
      Prod.fst TYPE_PATTERNS
  · intro vals p hp
    simp only [detect_patterns] at hp
    obtain ⟨l₁, x, l₂, heq, hx, hfx, hpre⟩ :=
      (findSomeIf_eq_some
        (fun pr : String × (String → Bool) => 5 * vals.countP pr.2 > 4 * vals.length)
        Prod.fst TYPE_PATTERNS p).mp hp
    refine ⟨l₁, x.2, l₂, ?_, hx, hpre⟩
    rw [← hfx]
    exact heq
  · intro col p hp
    simp only [infer_types, infer_from_values]
    have hne : (col.filterMap id).isEmpty = false := by
      cases hcol : col.filterMap id with
      | nil =>
        exfalso
        rw [hcol] at hp
        simp only [List.map_nil] at hp
        have hnone : detect_patterns ([] : List String) = none := by decide
        rw [hnone] at hp
        exact Option.noConfusion hp
      | cons a as => rfl
    rw [hne]
    simp only [Bool.false_eq_true, if_false]
    rw [hp]

/-- Witness for C3: a column of three e-mail addresses classifies as
`email` / `VARCHAR(100)` through the pattern phase. -/
theorem claim_C3_pattern_selection_witness :
    infer_types [some "a@b.co", some "c@d.co", some "e@f.co"] = ("email", "VARCHAR(100)") := by
  have h := claim_C3_pattern_selection.2.2.2.1
    [some "a@b.co", some "c@d.co", some "e@f.co"] "email" (by decide)
  rw [h]
  decide

/-- Claim C8 (confirmed): `(logicalType, targetType)` is a deterministic,
order-independent function of the column's non-null values only: any two
columns with the same non-null values up to permutation (in particular, the
same column twice, or any permutation of its cells) classify identically. -/
theorem claim_C8_classification_pure (c₁ c₂ : Column)
    (h : (c₁.filterMap id).Perm (c₂.filterMap id)) :
    infer_types c₁ = infer_types c₂ := by
  rw [infer_types, infer_types]
  exact infer_from_values_perm h

/-- Witness for C8: permuting cells and dropping a null leaves the
classification unchanged. -/
theorem claim_C8_classification_pure_witness :
    infer_types [some "1", none, some "2"] = infer_types [some "2", some "1"] :=
  claim_C8_classification_pure _ _ (by decide)

theorem detect_patterns_mem_names {vals : List String} {p : String}
    (h : detect_patterns vals = some p) :
    p ∈ (["email", "phone", "url", "date", "time", "boolean", "uuid"] : List String) := by
  rw [detect_patterns] at h
  obtain ⟨l₁, x, l₂, heq, hx, hfx, hpre⟩ :=
    (findSomeIf_eq_some
      (fun pr : String × (String → Bool) => 5 * vals.countP pr.2 > 4 * vals.length)
      Prod.fst TYPE_PATTERNS p).mp h
  have hxmem : x ∈ TYPE_PATTERNS := by
    rw [heq]
    exact List.mem_append.mpr (Or.inr (List.mem_cons_self _ _))
  have hmmem : x.1 ∈ TYPE_PATTERNS.map Prod.fst := List.mem_map_of_mem _ hxmem
  rw [hfx] at hmmem
  exact hmmem

theorem analyze_string_tag (vals : List String) :
    (analyze_string_type vals).1 ∈
      (["short_string", "string", "medium_string", "long_string"] : List String) := by
  simp only [analyze_string_type]
  split_ifs <;> simp

theorem classify_decimal_tag (nums : List Rat) :
    (classify_decimal_type nums).1 ∈ (["decimal", "float"] : List String) := by
  simp only [classify_decimal_type]
  split <;> (try split_ifs) <;> simp

theorem classify_integer_bounds (nums : List Rat) (hfit : fits64 nums) (lt mt : String)
    (h : classify_integer_type nums = (lt, mt)) :
    ∀ v ∈ nums, (integerTypeBounds lt).1 ≤ v ∧ v ≤ (integerTypeBounds lt).2 := by
  cases nums with
  | nil =>
    intro v hv
    exact absurd hv (List.not_mem_nil v)
  | cons x xs =>
    intro v hv
    have hmn : xs.foldl min x ≤ v := by
      rcases List.mem_cons.mp hv with hv | hv
      · subst hv
        exact foldl_min_le_init _ _
      · exact foldl_min_le_mem _ _ _ hv
    have hmx : v ≤ xs.foldl max x := by
      rcases List.mem_cons.mp hv with hv | hv
      · subst hv
        exact foldl_max_init_le _ _
      · exact foldl_max_mem_le _ _ _ hv
    simp only [classify_integer_type] at h
    simp only [fits64] at hfit
    split_ifs at h hfit with h0 h1 h2 h3 h4 h5 h6
    · injection h with ha hb
      subst ha
      rw [show (integerTypeBounds "tinyint_unsigned").1 = 0 from by decide,
        show (integerTypeBounds "tinyint_unsigned").2 = 255 from by decide]
      exact ⟨by linarith, by linarith⟩
    · injection h with ha hb
      subst ha
      rw [show (integerTypeBounds "smallint_unsigned").1 = 0 from by decide,
        show (integerTypeBounds "smallint_unsigned").2 = 65535 from by decide]
      exact ⟨by linarith, by linarith⟩
    · injection h with ha hb
      subst ha
      rw [show (integerTypeBounds "int_unsigned").1 = 0 from by decide,
        show (integerTypeBounds "int_unsigned").2 = 4294967295 from by decide]
      exact ⟨by linarith, by linarith⟩
    · injection h with ha hb
      subst ha
      rw [show (integerTypeBounds "bigint_unsigned").1 = 0 from by decide,
        show (integerTypeBounds "bigint_unsigned").2 = 18446744073709551615 from by decide]
      exact ⟨by linarith, by linarith⟩
    · injection h with ha hb
      subst ha
      rw [show (integerTypeBounds "tinyint").1 = -128 from by decide,
        show (integerTypeBounds "tinyint").2 = 127 from by decide]
      exact ⟨by linarith [h4.1], by linarith [h4.2]⟩
    · injection h with ha hb
      subst ha
      rw [show (integerTypeBounds "smallint").1 = -32768 from by decide,
        show (integerTypeBounds "smallint").2 = 32767 from by decide]
      exact ⟨by linarith [h5.1], by linarith [h5.2]⟩
    · injection h with ha hb
      subst ha
      rw [show (integerTypeBounds "int").1 = -2147483648 from by decide,
        show (integerTypeBounds "int").2 = 2147483647 from by decide]
      exact ⟨by linarith [h6.1], by linarith [h6.2]⟩
    · injection h with ha hb
      subst ha
      rw [show (integerTypeBounds "bigint").1 = -9223372036854775808 from by decide,
        show (integerTypeBounds "bigint").2 = 9223372036854775807 from by decide]
      exact ⟨by linarith [hfit.1], by linarith [hfit.2]⟩

/-- Claim C1 (corrected): whenever the classifier assigns a column an integer
logical type and all observed coerced values fit the 64-bit container of their
signedness class, every observed value lies inside the numeric range of the
chosen type.  (Without the 64-bit proviso the claim fails: the BIGINT
fallbacks are chosen without an upper/lower bound check — see the
counterexample.) -/
theorem claim_C1_integer_bounds (col : Column) (lt mt : String)
    (hc : infer_types col = (lt, mt))
    (hint : lt ∈ (["tinyint_unsigned", "smallint_unsigned", "int_unsigned", "bigint_unsigned",
      "tinyint", "smallint", "int", "bigint"] : List String))
    (hfit : fits64 (coercedValues col)) :
    ∀ v ∈ coercedValues col, (integerTypeBounds lt).1 ≤ v ∧ v ≤ (integerTypeBounds lt).2 := by
  simp only [infer_types, infer_from_values] at hc
  by_cases hnn : (col.filterMap id).isEmpty
  · rw [if_pos hnn] at hc
    injection hc with h1 h2
    subst h1
    exact absurd hint (by decide)
  · rw [if_neg hnn] at hc
    cases hdp : detect_patterns ((col.filterMap id).map pyStrip) with
    | some p =>
      rw [hdp] at hc
      have hc' : (p, get_mysql_type_for_pattern p) = (lt, mt) := hc
      injection hc' with h1 h2
      subst h1
      have hp7 := detect_patterns_mem_names hdp
      fin_cases hp7 <;> exact absurd hint (by decide)
    | none =>
      rw [hdp] at hc
      cases hdn : detect_numeric_types (col.filterMap id) with
      | none =>
        rw [hdn] at hc
        have hc' : analyze_string_type ((col.filterMap id).map pyStrip) = (lt, mt) := hc
        have htag := analyze_string_tag ((col.filterMap id).map pyStrip)
        rw [hc'] at htag
        simp only at htag
        fin_cases htag <;> exact absurd hint (by decide)
      | some r =>
        rw [hdn] at hc
        have hc' : r = (lt, mt) := hc
        simp only [detect_numeric_types] at hdn
        by_cases h90 : 10 * ((col.filterMap id).filterMap parseNumeric).length <
            9 * (col.filterMap id).length
        · rw [if_pos h90] at hdn
          exact Option.noConfusion hdn
        · rw [if_neg h90] at hdn
          by_cases hall : ((col.filterMap id).filterMap parseNumeric).all fun v => v.den == 1
          · rw [if_pos hall] at hdn
            injection hdn with hdn'
            have hcls : classify_integer_type (coercedValues col) = (lt, mt) := by
              rw [show coercedValues col = (col.filterMap id).filterMap parseNumeric from rfl,
                hdn']
              exact hc'
            exact classify_integer_bounds _ hfit lt mt hcls
          · rw [if_neg hall] at hdn
            injection hdn with hdn'
            have htag := classify_decimal_tag ((col.filterMap id).filterMap parseNumeric)
            rw [hdn', hc'] at htag
            simp only at htag
            fin_cases htag <;> exact absurd hint (by decide)

/-- Witness for C1 at the column `["5", "300"]`, classified
`SMALLINT UNSIGNED`, whose value 300 lies inside `[0, 65535]`. -/
theorem claim_C1_integer_bounds_witness :
    (integerTypeBounds "smallint_unsigned").1 ≤ (300 : Rat) ∧
    (300 : Rat) ≤ (integerTypeBounds "smallint_unsigned").2 := by
  have hfit : fits64 (coercedValues [some "5", some "300"]) := by
    have hcv : coercedValues [some "5", some "300"] = [(5 : Rat), (300 : Rat)] := by decide
    rw [hcv]
    decide
  exact claim_C1_integer_bounds [some "5", some "300"] "smallint_unsigned" "SMALLINT UNSIGNED"
    (by decide) (by decide) hfit 300 (by decide)

/-- Claim C1, counterexample: the one-value column `["100000000000000000000"]`
(10^20) classifies as `BIGINT UNSIGNED`, but 10^20 exceeds the BIGINT UNSIGNED
maximum 2^64 - 1 — the fallback type's range excludes the observed value. -/
theorem claim_C1_counterexample :
    infer_types [some "100000000000000000000"] = ("bigint_unsigned", "BIGINT UNSIGNED") ∧
    coercedValues [some "100000000000000000000"] = [mkRat (10 ^ 20) 1] ∧
    ¬ (mkRat (10 ^ 20) 1 ≤ (integerTypeBounds "bigint_unsigned").2) := by
  refine ⟨by decide, by decide, by decide⟩

/-- Claim C2 (corrected): the numeric-family quality findings run exactly for
the logical types `decimal`, `int`, `bigint`, `tinyint`, `smallint` (the
signed-named variants; unsigned integer variants and `float` are not
dispatched).  For a column of one of those types: if all non-null values
coerce to one identical number, the recommendations include the
all-values-identical finding; and if `IQR > 0` and IQR-outliers exist, they
include the outlier-percentage finding. -/
theorem claim_C2_numeric_family (col : Column)
    (hdt : (infer_types col).1 ∈
      (["decimal", "int", "bigint", "tinyint", "smallint"] : List String)) :
    (∀ c : Rat, coercedValues col ≠ [] →
      (∀ v ∈ col.filterMap id, parseNumeric v = some c) →
      identicalFinding ∈ cleaningRecsOf col) ∧
    (0 < iqrOf (coercedValues col) → outliersOf (coercedValues col) ≠ [] →
      outlierFinding (coercedValues col) ∈ cleaningRecsOf col) := by
  have hdisp : ∀ x : String, x ∈ analyze_numeric_quality (col.filterMap id) →
      (col.filterMap id) ≠ [] → x ∈ cleaningRecsOf col := by
    intro x hx hne
    rw [cleaningRecsOf]
    simp only [generate_cleaning_recommendations]
    rw [if_neg (fun hh => hne (List.isEmpty_iff.mp hh))]
    have hstr : containsSub "string".data ((infer_types col).1).data = false := by
      rcases (by simpa using hdt :
          (infer_types col).1 = "decimal" ∨ (infer_types col).1 = "int" ∨
          (infer_types col).1 = "bigint" ∨ (infer_types col).1 = "tinyint" ∨
          (infer_types col).1 = "smallint") with h | h | h | h | h <;> rw [h] <;> decide
    rw [hstr]
    simp only [Bool.false_eq_true, if_false]
    rw [if_pos hdt]
    exact List.mem_append_right _ hx
  constructor
  · intro c hne hall
    have hcv : coercedValues col = List.replicate (col.filterMap id).length c :=
      filterMap_eq_replicate hall
    have hlen : (col.filterMap id).length ≠ 0 := by
      intro hh
      apply hne
      rw [hcv, hh]
      rfl
    have hnonnil : (col.filterMap id) ≠ [] := by
      intro hh
      apply hlen
      rw [hh]
      rfl
    apply hdisp _ _ hnonnil
    simp only [analyze_numeric_quality]
    rw [show (col.filterMap id).filterMap parseNumeric = coercedValues col from rfl, hcv]
    obtain ⟨n, hn⟩ : ∃ n, (col.filterMap id).length = n + 1 :=
      ⟨(col.filterMap id).length - 1, by omega⟩
    rw [hn, List.replicate_succ]
    rw [if_neg (by simp)]
    have hmax : (maxListO (c :: List.replicate n c)).getD 0 = c := by
      simp only [maxListO, foldl_max_replicate, Option.getD_some]
    have hmin : (minListO (c :: List.replicate n c)).getD 0 = c := by
      simp only [minListO, foldl_min_replicate, Option.getD_some]
    rw [hmax, hmin]
    refine List.mem_append_right _ ?_
    rw [if_pos (show qSub c c = 0 from by rw [qSub_eq]; exact sub_self c)]
    exact List.mem_cons_self _ _
  · intro hiqr hout
    have hnums : coercedValues col ≠ [] := by
      intro hh
      apply hout
      rw [outliersOf, hh]
      rfl
    have hnonnil : (col.filterMap id) ≠ [] := by
      intro hh
      apply hnums
      rw [show coercedValues col = (col.filterMap id).filterMap parseNumeric from rfl, hh]
      rfl
    apply hdisp _ _ hnonnil
    simp only [analyze_numeric_quality]
    rw [show (col.filterMap id).filterMap parseNumeric = coercedValues col from rfl]
    rw [if_neg (fun hh => hnums (List.isEmpty_iff.mp hh))]
    rw [if_pos hiqr, if_pos (List.length_pos.mpr hout)]
    exact List.mem_append_left _ (List.mem_cons_self _ _)

/-- Witness for C2 (amended): a constant signed column gets the identical
finding; a signed column with one extreme value gets the outlier finding. -/
theorem claim_C2_numeric_family_witness :
    identicalFinding ∈ cleaningRecsOf [some "-5", some "-5"] ∧
    outlierFinding (coercedValues [some "-1", some "2", some "3", some "4", some "100"]) ∈
      cleaningRecsOf [some "-1", some "2", some "3", some "4", some "100"] := by
  constructor
  · exact (claim_C2_numeric_family [some "-5", some "-5"] (by decide)).1
      (-5) (by decide) (by decide)
  · exact (claim_C2_numeric_family [some "-1", some "2", some "3", some "4", some "100"]
      (by decide)).2 (by decide) (by decide)

theorem colname_part_ne_empty (c : ColumnAnalysis) :
    ("    `" ++ finalColumnName c.name ++ "`") ≠ "" := by
  intro hh
  have hdata := congrArg String.data hh
  rw [string_data_append, string_data_append] at hdata
  have hlen := congrArg List.length hdata
  rw [List.length_append, List.length_append] at hlen
  have h5 : "    `".data.length = 5 := by decide
  rw [h5] at hlen
  simp at hlen

theorem comment_part_ne_empty (c : ColumnAnalysis) :
    ("COMMENT '" ++ escapeTrunc c.description ++ "'") ≠ "" := by
  intro hh
  have hdata := congrArg String.data hh
  rw [string_data_append, string_data_append] at hdata
  have hlen := congrArg List.length hdata
  rw [List.length_append, List.length_append] at hlen
  have h9 : "COMMENT '".data.length = 9 := by decide
  rw [h9] at hlen
  simp at hlen

theorem generate_column_definition_eq_spec (c : ColumnAnalysis) (hmt : c.mysql_type ≠ "") :
    generate_column_definition c = ddlColumnDefSpec c := by
  have hname := colname_part_ne_empty c
  have hnullable : (if 0 < c.null_count then "NULL" else "NOT NULL") ≠ "" := by
    split_ifs <;> decide
  simp only [generate_column_definition, ddlColumnDefSpec]
  by_cases hd : c.description = ""
  · rw [if_neg (show ¬(c.description ≠ "") from fun hcon => hcon hd),
      if_pos (show c.description = "" from hd)]
    simp only [List.filter_cons, List.filter_nil, decide_eq_true_eq]
    rw [if_pos hname, if_pos hmt, if_pos hnullable,
      if_neg (show ¬(("" : String) ≠ "") from fun hcon => hcon rfl)]
    simp only [pyJoin]
    simp only [String.append_assoc, String.append_empty]
  · rw [if_pos (show c.description ≠ "" from hd),
      if_neg (show ¬(c.description = "") from hd)]
    have hcm := comment_part_ne_empty c
    simp only [List.filter_cons, List.filter_nil, decide_eq_true_eq]
    rw [if_pos hname, if_pos hmt, if_pos hnullable, if_pos hcm]
    simp only [pyJoin]
    simp only [String.append_assoc]

/-- Claim C5 (confirmed): the generated DDL is the fixed CREATE TABLE wrapper
around one definition per input column, in input order, joined by `",\n"`;
each definition is the backtick-quoted sanitized (and reserved-word suffixed)
name, the target type, `NULL`/`NOT NULL` by the null count, and a COMMENT
clause exactly when the description is non-empty.  (The hypothesis that each
analyzed column's target type is non-empty reflects that the classifier always
produces a non-empty type string.) -/
theorem claim_C5_ddl_structure (table_name : String) (columns : List ColumnAnalysis)
    (h : ∀ c ∈ columns, c.mysql_type ≠ "") :
    generate_ddl table_name columns =
      "CREATE TABLE `" ++ sanitize_identifier table_name ++ "` (" ++ "\n" ++
        pyJoin ",\n" (columns.map ddlColumnDefSpec) ++ "\n" ++
        ") ENGINE=InnoDB DEFAULT CHARSET=utf8mb4 COLLATE=utf8mb4_unicode_ci;" := by
  have hmap : columns.map generate_column_definition = columns.map ddlColumnDefSpec :=
    List.map_congr_left fun c hc => generate_column_definition_eq_spec c (h c hc)
  simp only [generate_ddl, hmap, pyJoin]
  simp only [String.append_assoc]

set_option maxRecDepth 8000 in
/-- Witness for C5 at a concrete two-column table. -/
theorem claim_C5_ddl_structure_witness :
    generate_ddl "user data"
      [{ name := "id", mysql_type := "INT UNSIGNED" },
       { name := "note", mysql_type := "TEXT", null_count := 2, description := "user's note" }] =
      "CREATE TABLE `user_data` (\n    `id` INT UNSIGNED NOT NULL,\n    `note` TEXT NULL COMMENT 'user\\'s note'\n) ENGINE=InnoDB DEFAULT CHARSET=utf8mb4 COLLATE=utf8mb4_unicode_ci;" := by
  rw [claim_C5_ddl_structure _ _ (by decide)]
  decide

/-- Claim C10 (confirmed, implicit): the COMMENT text is computed by first
escaping every single quote as `\'` and then truncating the escaped string to
its first 100 characters; since truncation counts escaped characters, a
description whose escaped form has the backslash of an escape sequence at
index 99 yields a comment ending in a lone backslash immediately before the
closing quote, as the concrete 99-`a` example shows. -/
theorem claim_C10_comment_escape :
    (∀ c : ColumnAnalysis, c.description ≠ "" →
      generate_column_definition c =
        pyJoin " " ((["    `" ++ finalColumnName c.name ++ "`", c.mysql_type,
            if 0 < c.null_count then "NULL" else "NOT NULL"]).filter (· ≠ "")) ++ " " ++
          ("COMMENT '" ++
            String.mk ((c.description.data.flatMap fun ch =>
              if ch == '\'' then ['\\', '\''] else [ch]).take 100) ++ "'")) ∧
    generate_column_definition
        { name := "c", mysql_type := "TEXT",
          description := String.mk (List.replicate 99 'a' ++ ['\'', 'b']) } =
      "    `c` TEXT NOT NULL COMMENT '" ++ String.mk (List.replicate 99 'a' ++ ['\\']) ++
        "'" := by
  constructor
  · intro c hdesc
    simp only [generate_column_definition]
    rw [if_pos hdesc]
    have hcm := comment_part_ne_empty c
    have hfilter : (["    `" ++ finalColumnName c.name ++ "`", c.mysql_type,
        if 0 < c.null_count then "NULL" else "NOT NULL",
        "COMMENT '" ++ escapeTrunc c.description ++ "'"].filter (· ≠ "")) =
        (["    `" ++ finalColumnName c.name ++ "`", c.mysql_type,
          if 0 < c.null_count then "NULL" else "NOT NULL"].filter (· ≠ "")) ++
          ["COMMENT '" ++ escapeTrunc c.description ++ "'"] := by
      rw [show (["    `" ++ finalColumnName c.name ++ "`", c.mysql_type,
          if 0 < c.null_count then "NULL" else "NOT NULL",
          "COMMENT '" ++ escapeTrunc c.description ++ "'"]) =
          (["    `" ++ finalColumnName c.name ++ "`", c.mysql_type,
            if 0 < c.null_count then "NULL" else "NOT NULL"]) ++
          ["COMMENT '" ++ escapeTrunc c.description ++ "'"] from rfl]
      rw [List.filter_append]
      congr 1
    have hLne : (["    `" ++ finalColumnName c.name ++ "`", c.mysql_type,
        if 0 < c.null_count then "NULL" else "NOT NULL"].filter (· ≠ "")) ≠ [] := by
      have hmem : ("    `" ++ finalColumnName c.name ++ "`") ∈
          (["    `" ++ finalColumnName c.name ++ "`", c.mysql_type,
            if 0 < c.null_count then "NULL" else "NOT NULL"].filter (· ≠ "")) := by
        rw [List.mem_filter]
        exact ⟨List.mem_cons_self _ _, by simpa using colname_part_ne_empty c⟩
      exact List.ne_nil_of_mem hmem
    rw [hfilter, pyJoin_append_singleton _ _ _ hLne]
    rfl
  · decide

/-- Witness for C10: a description containing a quote renders escaped inside
the COMMENT clause. -/
theorem claim_C10_comment_escape_witness :
    generate_column_definition
        { name := "n", mysql_type := "TEXT", null_count := 1, description := "it's big" } =
      "    `n` TEXT NULL COMMENT 'it\\'s big'" := by
  rw [claim_C10_comment_escape.1 _ (by decide)]
  decide

end SchemaSense

